import Mathlib

/-!
Shallow embedding of the proof-backed state-access layer of a host/guest
zk-EVM system, together with the guest-side composition protocol of its
token-stats example.  The definitions mirror the Rust source
(`steel/src/host/mod.rs` and the token-stats guest `main.rs`); the theorems
settle the behavioural claims made by the design specification.
-/

set_option maxRecDepth 4096

/-! ## Block selector: `BlockNumberOrTag` (host/mod.rs lines 51-126) -/

/-- Model of `alloy::rpc::types::BlockNumberOrTag`, the RPC-side block
selector that the local selector is converted into. -/
inductive AlloyBlockNumberOrTag where
  | latest
  | finalized
  | safe
  | earliest
  | pending
  | number (n : Nat)
  deriving DecidableEq, Repr

/-- Model of `BlockNumberOrTag`: a block number or tag
("latest", "parent", "safe", "finalized").  `Number` carries a `u64`,
modelled as a `Nat` (well-formed values are `< 2 ^ 64`). -/
inductive BlockNumberOrTag where
  | latest
  | parent
  | safe
  | finalized
  | number (n : Nat)
  deriving DecidableEq, Repr

/-- Model of the error type of `BlockNumberOrTag::from_str`
(`ParseBlockNumberError`): either the underlying `u64::from_str_radix`
failed, or the string lacked the `0x` marker
(`HexStringMissingPrefixError`). -/
inductive ParseBlockNumberError where
  | parseIntError
  | missingHexMark
  deriving DecidableEq, Repr

/-- One bound used throughout: `u64::MAX + 1`. -/
def U64_MOD : Nat := 2 ^ 64

/-- Whether a character is a digit of radix 16, as recognised by
`char::to_digit(16)` inside `u64::from_str_radix`. -/
def isHexDigit (c : Char) : Bool :=
  (('0' ≤ c && c ≤ '9') || ('a' ≤ c && c ≤ 'f') || ('A' ≤ c && c ≤ 'F'))

/-- Numeric value of a radix-16 digit character (`char::to_digit(16)`);
junk on non-digits, which are ruled out before it is used. -/
def hexVal (c : Char) : Nat :=
  if '0' ≤ c && c ≤ '9' then c.toNat - '0'.toNat
  else if 'a' ≤ c && c ≤ 'f' then c.toNat - 'a'.toNat + 10
  else if 'A' ≤ c && c ≤ 'F' then c.toNat - 'A'.toNat + 10
  else 0

/-- The digit-accumulation loop of `u64::from_str_radix(.., 16)`: each step
multiplies by the radix and adds the digit, failing (`None`) on the first
non-digit character or on 64-bit overflow (`checked_mul` / `checked_add`). -/
def parseHexCore : List Char → Nat → Option Nat
  | [], acc => some acc
  | c :: cs, acc =>
    if isHexDigit c then
      if acc * 16 + hexVal c < U64_MOD then parseHexCore cs (acc * 16 + hexVal c)
      else none
    else none

/-- Model of `u64::from_str_radix(s, 16)` on the character list of `s`:
an empty string fails, a leading `'+'` sign is consumed (but must be
followed by at least one digit), and the remaining characters are
accumulated by `parseHexCore`.  A leading `'-'` is not special for an
unsigned target and simply fails as a non-digit. -/
def fromStrRadix16 : List Char → Option Nat
  | [] => none
  | c :: ds =>
    if c = '+' then (if ds.isEmpty then none else parseHexCore ds 0)
    else parseHexCore (c :: ds) 0

/-- Model of `<BlockNumberOrTag as FromStr>::from_str` (host/mod.rs lines
94-114): the four literal tags are matched first; otherwise the string must
carry the `0x` marker, and the rest is parsed by `u64::from_str_radix`
with radix 16.  Without the marker the result is the
`HexStringMissingPrefixError` conversion. -/
def BlockNumberOrTag.fromStr (s : String) :
    Except ParseBlockNumberError BlockNumberOrTag :=
  if s = "latest" then .ok .latest
  else if s = "parent" then .ok .parent
  else if s = "safe" then .ok .safe
  else if s = "finalized" then .ok .finalized
  else
    match s.data with
    | '0' :: 'x' :: hexChars =>
      match fromStrRadix16 hexChars with
      | some n => .ok (.number n)
      | none => .error .parseIntError
    | _ => .error .missingHexMark

/-- Digit character of a value `< 16`, lowercase, as produced by the
`{x:x}` (`LowerHex`) formatting. -/
def toHexChar (n : Nat) : Char :=
  if n < 10 then Char.ofNat ('0'.toNat + n)
  else Char.ofNat ('a'.toNat + (n - 10))

/-- Lowercase hex digits of `n`, most significant first, no leading zeros
(`0` renders as `"0"`), as produced by `{x:x}`. -/
def natToHex (n : Nat) : List Char :=
  if _h : n < 16 then [toHexChar n]
  else natToHex (n / 16) ++ [toHexChar (n % 16)]
  decreasing_by exact Nat.div_lt_self (by omega) (by omega)

/-- Model of `<BlockNumberOrTag as Display>::fmt` (host/mod.rs lines
116-126): numbers render as `0x` followed by lowercase hex, tags render as
their literal names. -/
def BlockNumberOrTag.display : BlockNumberOrTag → String
  | .number x => "0x" ++ String.mk (natToHex x)
  | .latest => "latest"
  | .parent => "parent"
  | .safe => "safe"
  | .finalized => "finalized"

/-- Model of `BlockNumberOrTag::into_rpc_type` (host/mod.rs lines 73-91).
The one provider interaction, `provider.get_block_number()`, is abstracted
as the supplied current chain height `latest`; the `ensure!` failure for
`Parent` of genesis is the `Except.error` case. -/
def BlockNumberOrTag.into_rpc_type (self : BlockNumberOrTag) (latest : Nat) :
    Except String AlloyBlockNumberOrTag :=
  match self with
  | .latest => .ok .latest
  | .parent =>
    if latest > 0 then .ok (.number (latest - 1))
    else .error "genesis does not have a parent"
  | .safe => .ok .safe
  | .finalized => .ok .finalized
  | .number n => .ok (.number n)

example : BlockNumberOrTag.fromStr "0xff" = .ok (.number 255) := by rfl
example : BlockNumberOrTag.fromStr "latest" = .ok .latest := by rfl
example : BlockNumberOrTag.fromStr "255" = .error .missingHexMark := by rfl
example : BlockNumberOrTag.fromStr "0x+f" = .ok (.number 15) := by rfl
example : (BlockNumberOrTag.number 255).display = "0xff" := by
  simp [BlockNumberOrTag.display, natToHex, toHexChar]

/-! ### Spec-side grammar of block selectors and parsing lemmas -/

/-- Spec-side rendering of the specification's block-selector grammar
`"latest" | "parent" | "safe" | "finalized" | "0x" HEX` (spec section 6),
where `HEX` is one or more hexadecimal digit characters.  Written from the
specification's words, for comparison with `BlockNumberOrTag.fromStr`. -/
def inGrammar (s : String) : Bool :=
  s = "latest" || s = "parent" || s = "safe" || s = "finalized" ||
    (match s.data with
     | '0' :: 'x' :: hexChars => !hexChars.isEmpty && hexChars.all isHexDigit
     | _ => false)

/-- Value of a hex digit string, most significant digit first. -/
def hexDigitsVal (cs : List Char) : Nat :=
  cs.foldl (fun a c => a * 16 + hexVal c) 0

/-- Spec-side description of the strings actually accepted after the `0x`
marker: an optional leading `'+'` sign, then one or more hex digits whose
value fits in 64 bits. -/
def acceptedHexBody (cs : List Char) : Bool :=
  let ds := if cs.headD 'x' = '+' then cs.tail else cs
  (!ds.isEmpty && ds.all isHexDigit) && hexDigitsVal ds < U64_MOD

/-- The amended block-selector grammar: the four tags, or `0x` followed by
an optional `'+'` sign and one or more hex digits denoting a value below
`2 ^ 64`.  Written for comparison with `BlockNumberOrTag.fromStr`. -/
def inGrammarAmended (s : String) : Bool :=
  if s = "latest" then true
  else if s = "parent" then true
  else if s = "safe" then true
  else if s = "finalized" then true
  else
    match s.data with
    | '0' :: 'x' :: hexChars => acceptedHexBody hexChars
    | _ => false

theorem hex_foldl_le (cs : List Char) :
    ∀ acc : Nat, acc ≤ cs.foldl (fun a c => a * 16 + hexVal c) acc := by
  induction cs with
  | nil => intro acc; simp
  | cons c cs ih =>
    intro acc
    calc acc ≤ acc * 16 + hexVal c := by omega
    _ ≤ cs.foldl (fun a c => a * 16 + hexVal c) (acc * 16 + hexVal c) := ih _
    _ = (c :: cs).foldl (fun a c => a * 16 + hexVal c) acc := by simp

theorem parseHexCore_eq (cs : List Char) :
    ∀ acc : Nat, acc < U64_MOD → parseHexCore cs acc =
      if cs.all isHexDigit ∧ cs.foldl (fun a c => a * 16 + hexVal c) acc < U64_MOD
      then some (cs.foldl (fun a c => a * 16 + hexVal c) acc)
      else none := by
  induction cs with
  | nil =>
    intro acc hacc
    simp [parseHexCore, hacc]
  | cons c cs ih =>
    intro acc hacc
    by_cases hc : isHexDigit c
    · by_cases hlt : acc * 16 + hexVal c < U64_MOD
      · rw [show parseHexCore (c :: cs) acc = parseHexCore cs (acc * 16 + hexVal c) by
          simp [parseHexCore, hc, hlt]]
        rw [ih _ hlt]
        simp [hc]
      · have hge : U64_MOD ≤ (c :: cs).foldl (fun a c => a * 16 + hexVal c) acc := by
          simp only [List.foldl_cons]
          exact Nat.le_trans (Nat.le_of_not_lt hlt) (hex_foldl_le cs _)
        rw [show parseHexCore (c :: cs) acc = none by simp [parseHexCore, hc, hlt]]
        rw [if_neg]
        rintro ⟨-, h⟩
        omega
    · simp [parseHexCore, hc]

theorem parseHexCore_zero (cs : List Char) :
    parseHexCore cs 0 =
      if cs.all isHexDigit ∧ hexDigitsVal cs < U64_MOD
      then some (hexDigitsVal cs) else none := by
  rw [parseHexCore_eq cs 0 (by simp [U64_MOD])]; rfl

theorem parseHexCore_zero_isSome (cs : List Char) :
    (parseHexCore cs 0).isSome =
      (cs.all isHexDigit && decide (hexDigitsVal cs < U64_MOD)) := by
  rw [parseHexCore_zero]
  by_cases h1 : cs.all isHexDigit = true <;>
    by_cases h2 : hexDigitsVal cs < U64_MOD <;>
      simp [h1, h2]

theorem fromStrRadix16_isSome (cs : List Char) :
    (fromStrRadix16 cs).isSome = acceptedHexBody cs := by
  rcases cs with _ | ⟨c, ds⟩
  · rfl
  · by_cases hc : c = '+'
    · subst hc
      by_cases hds : ds.isEmpty <;>
        simp [fromStrRadix16, acceptedHexBody, hds, parseHexCore_zero_isSome]
    · simp [fromStrRadix16, acceptedHexBody, hc, parseHexCore_zero_isSome]

theorem toHexChar_hex {k : Nat} (hk : k < 16) : isHexDigit (toHexChar k) = true := by
  interval_cases k <;> decide

theorem hexVal_toHexChar {k : Nat} (hk : k < 16) : hexVal (toHexChar k) = k := by
  interval_cases k <;> decide

theorem toHexChar_ne_plus {k : Nat} (hk : k < 16) : toHexChar k ≠ '+' := by
  interval_cases k <;> decide

theorem hexDigitsVal_append_singleton (a : List Char) (c : Char) :
    hexDigitsVal (a ++ [c]) = hexDigitsVal a * 16 + hexVal c := by
  simp [hexDigitsVal, List.foldl_append]

theorem natToHex_spec (n : Nat) :
    natToHex n ≠ [] ∧ (natToHex n).all isHexDigit = true ∧
      hexDigitsVal (natToHex n) = n := by
  induction n using Nat.strong_induction_on with
  | _ n ih =>
    rw [natToHex]
    split
    · rename_i h
      refine ⟨by simp, by simp [toHexChar_hex h], ?_⟩
      simp [hexDigitsVal, hexVal_toHexChar h]
    · rename_i h
      have hdiv : n / 16 < n := Nat.div_lt_self (by omega) (by omega)
      obtain ⟨-, hall, hval⟩ := ih (n / 16) hdiv
      refine ⟨by simp, ?_, ?_⟩
      · simp [List.all_append, hall, toHexChar_hex (Nat.mod_lt n (by omega))]
      · rw [hexDigitsVal_append_singleton, hval,
          hexVal_toHexChar (Nat.mod_lt n (by omega))]
        omega

theorem fromStr_mk_0x (l : List Char) :
    BlockNumberOrTag.fromStr ⟨'0' :: 'x' :: l⟩ =
      match fromStrRadix16 l with
      | some n => .ok (.number n)
      | none => .error .parseIntError := by
  have h1 : (⟨'0' :: 'x' :: l⟩ : String) ≠ "latest" := by
    intro h
    have h2 : some '0' = some 'l' := congrArg (fun s => s.data.head?) h
    exact absurd h2 (by decide)
  have h2 : (⟨'0' :: 'x' :: l⟩ : String) ≠ "parent" := by
    intro h
    have h2 : some '0' = some 'p' := congrArg (fun s => s.data.head?) h
    exact absurd h2 (by decide)
  have h3 : (⟨'0' :: 'x' :: l⟩ : String) ≠ "safe" := by
    intro h
    have h2 : some '0' = some 's' := congrArg (fun s => s.data.head?) h
    exact absurd h2 (by decide)
  have h4 : (⟨'0' :: 'x' :: l⟩ : String) ≠ "finalized" := by
    intro h
    have h2 : some '0' = some 'f' := congrArg (fun s => s.data.head?) h
    exact absurd h2 (by decide)
  simp only [BlockNumberOrTag.fromStr, h1, h2, h3, h4, if_false]

/-- Well-formedness of a block selector value: the number variant carries a
`u64`. -/
def wfSelector : BlockNumberOrTag → Prop
  | .number n => n < U64_MOD
  | _ => True

/-! ## Host environment: `HostEvmEnv` (host/mod.rs lines 128-253)

The host `EvmEnv` couples an optional database (the `Option` slot models
the take-out/restore convention used for blocking tasks), a header, the
revm configuration, and the host-side commitment wrapper.  Generic
parameters of the Rust type — the database `D` and the inner commitment
`C` — stay type parameters of the model; the header is modelled by the
fields that the code in scope reads (`number()`, `timestamp()`) plus its
state root. -/

/-- Header model: the `EvmBlockHeader` accessors used by the host code. -/
structure HeaderM where
  number : Nat
  timestamp : Nat
  state_root : Nat
  deriving DecidableEq, Repr

/-- The fields of revm's `CfgEnvWithHandlerCfg` that `with_chain_spec`
writes: the chain id and the handler specification (fork) id. -/
structure CfgEnvM where
  chain_id : Nat
  spec_id : Nat
  deriving DecidableEq, Repr

/-- Model of `HostCommit<C>`: the inner commitment and the chain-config
digest `config_id`. -/
structure HostCommit (C : Type) where
  inner : C
  config_id : Nat

/-- Model of `HostEvmEnv<D, H, C> = EvmEnv<ProofDb<D>, H, HostCommit<C>>`.
The database lives in an `Option` slot because `spawn_with_db` temporarily
takes it out (`self.db.take()`). -/
structure HostEvmEnv (D C : Type) where
  db : Option D
  header : HeaderM
  cfg_env : CfgEnvM
  commit : HostCommit C

/-- Model of `ChainSpec` as used by `with_chain_spec`: a chain id, the
`active_fork (number, timestamp)` lookup, and the spec digest.
`active_fork` itself lives outside the excerpt, so it is kept as an
abstract field returning `Option` exactly as the Rust method does. -/
structure ChainSpec where
  chain_id : Nat
  active_fork : Nat → Nat → Option Nat
  digest : Nat

/-- Model of `HostEvmEnv::with_chain_spec` (host/mod.rs lines 206-219):
sets the chain id, the active fork id and the config digest from the given
chain spec.  The `unwrap` on `active_fork` panics when no fork is active
for the header's number and timestamp; a panic is modelled as `none`. -/
def HostEvmEnv.with_chain_spec {D C : Type} (self : HostEvmEnv D C)
    (chain_spec : ChainSpec) : Option (HostEvmEnv D C) :=
  match chain_spec.active_fork self.header.number self.header.timestamp with
  | none => none
  | some spec_id =>
    some { self with
      cfg_env := { chain_id := chain_spec.chain_id, spec_id := spec_id }
      commit := { self.commit with config_id := chain_spec.digest } }

/-- Model of `HostEvmEnv::spawn_with_db` (host/mod.rs lines 149-165).  The
closure, which mutates the database and produces a result, is modelled in
state-passing style; a panicking closure (whose `spawn_blocking` join error
makes the whole call panic via `expect`) is its `none` result.  The call
itself panics (`none`) when the database slot is empty (`take().unwrap()`)
or when the closure panics; otherwise it returns the closure's result
paired with the environment whose slot holds the restored database. -/
def HostEvmEnv.spawn_with_db {D C R : Type} (self : HostEvmEnv D C)
    (f : D → Option (R × D)) : Option (R × HostEvmEnv D C) :=
  match self.db with
  | none => none
  | some db =>
    match f db with
    | none => none
    | some (result, db) => some (result, { self with db := some db })

/-- Model of `ComposeInput<H, C>` as built by `ComposeInput::new(input,
commit)`. -/
structure ComposeInput (BI C : Type) where
  input : BI
  commit : C

/-- Model of the `EvmInput<H>` enum: the serializable guest input, one
variant per commitment strategy.  `BI` abstracts `BlockInput<H>`, `BC` the
`BeaconCommit` payload and `HC` the `HistoryCommit` payload. -/
inductive EvmInput (BI BC HC : Type) where
  | block : BI → EvmInput BI BC HC
  | beacon : ComposeInput BI BC → EvmInput BI BC HC
  | history : ComposeInput BI HC → EvmInput BI BC HC

/-- Model of `HostEvmEnv<AlloyDb<..>, H, ()>::into_input` (host/mod.rs
lines 199-203), the finalization of a plain block-committed environment.
`from_proof_db` (defined outside the excerpt) drains the proof database
into a `BlockInput`; it is abstracted as the fallible argument `fpd`.  The
`unwrap` on the database slot is the `none` case. -/
def HostEvmEnv.into_input_block {D BI BC HC : Type} (self : HostEvmEnv D Unit)
    (fpd : D → HeaderM → Option BI) : Option (EvmInput BI BC HC) :=
  match self.db with
  | none => none
  | some db =>
    match fpd db self.header with
    | none => none
    | some input => some (.block input)

/-- Model of `EthHostEvmEnv<.., BeaconCommit>::into_input` (host/mod.rs
lines 227-234): finalization of a Beacon-committed environment wraps the
drained `BlockInput` with the inner commit into the `Beacon` variant. -/
def HostEvmEnv.into_input_beacon {D BI BC HC : Type} (self : HostEvmEnv D BC)
    (fpd : D → HeaderM → Option BI) : Option (EvmInput BI BC HC) :=
  match self.db with
  | none => none
  | some db =>
    match fpd db self.header with
    | none => none
    | some input => some (.beacon (ComposeInput.mk input self.commit.inner))

/-- Model of `EthHostEvmEnv<.., HistoryCommit>::into_input` (host/mod.rs
lines 245-252): finalization of a History-committed environment wraps the
drained `BlockInput` with the inner commit into the `History` variant. -/
def HostEvmEnv.into_input_history {D BI BC HC : Type} (self : HostEvmEnv D HC)
    (fpd : D → HeaderM → Option BI) : Option (EvmInput BI BC HC) :=
  match self.db with
  | none => none
  | some db =>
    match fpd db self.header with
    | none => none
    | some input => some (.history (ComposeInput.mk input self.commit.inner))

/-! ## Guest composition protocol (token-stats guest `main.rs`)

The guest program reads an `Input { input, self_image_id, assumption }`,
optionally folds in a prior run's journal, executes the two view calls, and
commits a new `Journal`.  The operations the guest delegates to its
environment — `env::verify`, `Journal::abi_decode`, `input.link`, the
EVM execution of the two calls, `env.into_commitment()` and the `core`
crate's `TokenStats::add_supply_rate` — live outside the two source files
in scope and are abstracted as oracle fields, so the theorems quantify over
every behaviour of those collaborators.  Type parameters: `I` the Steel
input, `S` the `TokenStats` accumulator (with its `Default`), `B` the raw
journal bytes, `G` the image-id digest. -/

/-- Model of `SECONDS_PER_YEAR` (guest main.rs line 21). -/
def SECONDS_PER_YEAR : Nat := 60 * 60 * 24 * 365

/-- Model of the guest's decoded `Journal { commitment, stats,
selfImageID }`.  The commitment is opaque (`Nat`). -/
structure Journal (S G : Type) where
  commitment : Nat
  stats : S
  selfImageID : G

/-- Model of the guest's `Input { input, self_image_id, assumption }` as
read from the environment. -/
structure GuestInput (I B G : Type) where
  input : I
  self_image_id : G
  assumption : Option B

/-- Oracles for the guest's external collaborators:
`verify g b` is whether `env::verify(g, b)` succeeds; `decode b` is
`Journal::abi_decode(b, false)`; `link i c` is whether `input.link(&c)`
succeeds; `exec i` is the result of `into_env`/`with_chain_spec`/the two
contract calls, yielding the supply rate and the commitment that
`env.into_commitment()` later returns (`none` when any of those aborts);
`add_supply_rate` is `TokenStats::add_supply_rate`. -/
structure GuestOracles (I S B G : Type) where
  verify : G → B → Bool
  decode : B → Option (Journal S G)
  link : I → Nat → Bool
  exec : I → Option (Nat × Nat)
  add_supply_rate : S → Nat → S

/-- The `let mut stats = if let Some(journal) = assumption { .. } else
{ Default::default() }` binding of the guest `main` (guest main.rs lines
32-48): with an assumption, the journal bytes are verified against the
current image id (`env::verify`, `unwrap` on failure), decoded (`unwrap`
on failure), the decoded image id is asserted equal to the current one
(`assert_eq!`), and the input is linked to the decoded commitment; any
failure is a fatal abort (`none`).  Without an assumption the stats start
from `Default::default()`. -/
def guestStats {I S B G : Type} [Inhabited S] [DecidableEq G]
    (o : GuestOracles I S B G) (inp : GuestInput I B G) : Option S :=
  match inp.assumption with
  | some journalBytes =>
    if o.verify inp.self_image_id journalBytes then
      match o.decode journalBytes with
      | none => none
      | some j =>
        if j.selfImageID = inp.self_image_id then
          if o.link inp.input j.commitment then some j.stats else none
        else none
    else none
  | none => some default

/-- Model of the guest `main` (guest main.rs lines 23-81).  A fatal abort
anywhere — inside `guestStats` or inside execution — is `none`; a
successful run returns the journal committed by `env::commit_slice`,
holding the new commitment, the updated stats and the current image id. -/
def guestMain {I S B G : Type} [Inhabited S] [DecidableEq G]
    (o : GuestOracles I S B G) (inp : GuestInput I B G) :
    Option (Journal S G) :=
  match guestStats o inp with
  | none => none
  | some stats =>
    match o.exec inp.input with
    | none => none
    | some (supply_rate, commitment) =>
      let annual_supply_rate := supply_rate * SECONDS_PER_YEAR
      some { commitment := commitment
             stats := o.add_supply_rate stats annual_supply_rate
             selfImageID := inp.self_image_id }

/-! ## Claim theorems: block selector parsing and resolution -/

/-- C6: Resolution of the `Parent` block selector queries the current chain
height; at height zero it fails with an error and never yields a block, and
at height `h > 0` it resolves to block number `h - 1`. -/
theorem parent_resolution (latest : Nat) :
    (latest = 0 →
      BlockNumberOrTag.into_rpc_type .parent latest =
        .error "genesis does not have a parent") ∧
    (0 < latest →
      BlockNumberOrTag.into_rpc_type .parent latest =
        .ok (.number (latest - 1))) := by
  constructor
  · rintro rfl; rfl
  · intro h; simp [BlockNumberOrTag.into_rpc_type, h]

/-- Witness for `parent_resolution` at heights 0 and 5. -/
theorem parent_resolution_witness :
    BlockNumberOrTag.into_rpc_type .parent 0 =
        .error "genesis does not have a parent" ∧
      BlockNumberOrTag.into_rpc_type .parent 5 = .ok (.number 4) :=
  ⟨(parent_resolution 0).1 rfl, (parent_resolution 5).2 (by decide)⟩

/-- C7 counterexample: the string `"0x+f"` is outside the specified grammar
`"latest" | "parent" | "safe" | "finalized" | "0x" HEX`, yet
`from_str` accepts it (as block number 15), because `u64::from_str_radix`
tolerates a leading `'+'` sign; conversely `"0xffffffffffffffff0"` is
inside the grammar (all 17 trailing characters are hex digits), yet
`from_str` rejects it because its value overflows 64 bits.  So acceptance
does not coincide with the specified grammar on either side. -/
theorem fromStr_grammar_counterexample :
    ¬ ((BlockNumberOrTag.fromStr "0x+f").isOk = true ↔ inGrammar "0x+f" = true) ∧
    ¬ ((BlockNumberOrTag.fromStr "0xffffffffffffffff0").isOk = true ↔
        inGrammar "0xffffffffffffffff0" = true) := by
  decide

/-- C7 (amended): `from_str` accepts exactly the tags together with `0x`
followed by an optional `'+'` sign and one or more hex digits whose value
fits in 64 bits; every other string is rejected with a parse error.  In
particular a decimal string without the `0x` marker is rejected, and
`"0xff"` parses to block number 255. -/
theorem fromStr_accepts_amended_grammar :
    (∀ s : String,
      (BlockNumberOrTag.fromStr s).isOk = true ↔ inGrammarAmended s = true) ∧
    BlockNumberOrTag.fromStr "0xff" = .ok (.number 255) ∧
    BlockNumberOrTag.fromStr "255" = .error .missingHexMark := by
  refine ⟨fun s => ?_, by rfl, by rfl⟩
  unfold BlockNumberOrTag.fromStr inGrammarAmended
  by_cases hl : s = "latest"
  · simp [hl, Except.isOk, Except.toBool]
  · by_cases hp : s = "parent"
    · simp [hl, hp, Except.isOk, Except.toBool]
    · by_cases hs : s = "safe"
      · simp [hl, hp, hs, Except.isOk, Except.toBool]
      · by_cases hf : s = "finalized"
        · simp [hl, hp, hs, hf, Except.isOk, Except.toBool]
        · simp only [hl, hp, hs, hf, if_false]
          split
          · rename_i hexChars heq
            have hiff := fromStrRadix16_isSome hexChars
            cases hfs : fromStrRadix16 hexChars <;> rw [hfs] at hiff <;>
              simp_all [Except.isOk, Except.toBool]
          · simp [Except.isOk, Except.toBool]

/-- Witness for `fromStr_accepts_amended_grammar` at the string "0xff". -/
theorem fromStr_accepts_amended_grammar_witness :
    (BlockNumberOrTag.fromStr "0xff").isOk = true ↔ inGrammarAmended "0xff" = true :=
  fromStr_accepts_amended_grammar.1 "0xff"

/-- C9: parsing the textual rendering of any well-formed block selector
yields the selector back; `Number n` renders as lowercase `0x`-hex and
parses back to `Number n` for every `u64` value `n`. -/
theorem fromStr_display_roundtrip (v : BlockNumberOrTag) (h : wfSelector v) :
    BlockNumberOrTag.fromStr v.display = .ok v := by
  cases v with
  | latest => rfl
  | parent => rfl
  | safe => rfl
  | finalized => rfl
  | number n =>
    have hn : n < U64_MOD := h
    obtain ⟨hne, hall, hval⟩ := natToHex_spec n
    rw [show (BlockNumberOrTag.number n).display = ⟨'0' :: 'x' :: natToHex n⟩
        from rfl]
    rw [fromStr_mk_0x]
    rcases hx : natToHex n with _ | ⟨c, ds⟩
    · exact absurd hx hne
    · rw [hx] at hall hval
      have hc : isHexDigit c = true := by
        simp only [List.all_cons, Bool.and_eq_true] at hall
        exact hall.1
      have hcp : c ≠ '+' := by
        intro hcp
        rw [hcp] at hc
        exact absurd hc (by decide)
      rw [show fromStrRadix16 (c :: ds) = parseHexCore (c :: ds) 0 by
        simp [fromStrRadix16, hcp]]
      rw [parseHexCore_zero, if_pos ⟨hall, by rw [hval]; exact hn⟩]
      rw [hval]

/-- Witness for `fromStr_display_roundtrip` at `Number 255`. -/
theorem fromStr_display_roundtrip_witness :
    BlockNumberOrTag.fromStr (BlockNumberOrTag.number 255).display =
      .ok (.number 255) :=
  fromStr_display_roundtrip (.number 255) (by norm_num [wfSelector, U64_MOD])

/-! ## Claim theorems: host environment -/

/-- Fixture chain spec used by the witnesses. -/
def chainSpecFixture : ChainSpec :=
  { chain_id := 1, active_fork := fun _ _ => some 17, digest := 5 }

/-- Fixture host environment used by the witnesses. -/
def hostEnvFixture : HostEvmEnv Nat Nat :=
  { db := some 0
    header := { number := 1, timestamp := 2, state_root := 3 }
    cfg_env := { chain_id := 0, spec_id := 0 }
    commit := { inner := 9, config_id := 0 } }

/-- The environment `hostEnvFixture.with_chain_spec chainSpecFixture`
evaluates to. -/
def hostEnvFixtureAfter : HostEvmEnv Nat Nat :=
  { db := some 0
    header := { number := 1, timestamp := 2, state_root := 3 }
    cfg_env := { chain_id := 1, spec_id := 17 }
    commit := { inner := 9, config_id := 5 } }

/-- C3: `with_chain_spec` panics (returns no environment) exactly when the
chain spec has no active fork for the header's number and timestamp;
otherwise the returned environment's chain id, specification id and
commitment config digest are those of the given chain spec. -/
theorem with_chain_spec_spec {D C : Type} (env : HostEvmEnv D C)
    (cs : ChainSpec) :
    (env.with_chain_spec cs = none ↔
      cs.active_fork env.header.number env.header.timestamp = none) ∧
    (∀ env', env.with_chain_spec cs = some env' →
      env'.cfg_env.chain_id = cs.chain_id ∧
      some env'.cfg_env.spec_id =
        cs.active_fork env.header.number env.header.timestamp ∧
      env'.commit.config_id = cs.digest) := by
  rcases h : cs.active_fork env.header.number env.header.timestamp with _ | sid <;>
    simp [HostEvmEnv.with_chain_spec, h]

/-- Witness for `with_chain_spec_spec` on the fixtures. -/
theorem with_chain_spec_spec_witness :
    hostEnvFixtureAfter.cfg_env.chain_id = chainSpecFixture.chain_id ∧
    some hostEnvFixtureAfter.cfg_env.spec_id =
      chainSpecFixture.active_fork 1 2 ∧
    hostEnvFixtureAfter.commit.config_id = chainSpecFixture.digest :=
  (with_chain_spec_spec hostEnvFixture chainSpecFixture).2
    hostEnvFixtureAfter rfl

/-- C10: `with_chain_spec` only rewrites the configuration fields; the
header, the database slot and the inner commitment value of the returned
environment are those of the input environment. -/
theorem with_chain_spec_frame {D C : Type} (env : HostEvmEnv D C)
    (cs : ChainSpec) (env' : HostEvmEnv D C)
    (h : env.with_chain_spec cs = some env') :
    env'.header = env.header ∧ env'.db = env.db ∧
      env'.commit.inner = env.commit.inner := by
  unfold HostEvmEnv.with_chain_spec at h
  rcases hf : cs.active_fork env.header.number env.header.timestamp with _ | sid <;>
    rw [hf] at h
  · cases h
  · obtain rfl : _ = env' := Option.some.inj h
    simp

/-- Witness for `with_chain_spec_frame` on the fixtures. -/
theorem with_chain_spec_frame_witness :
    hostEnvFixtureAfter.header = hostEnvFixture.header ∧
    hostEnvFixtureAfter.db = hostEnvFixture.db ∧
    hostEnvFixtureAfter.commit.inner = hostEnvFixture.commit.inner :=
  with_chain_spec_frame hostEnvFixture chainSpecFixture hostEnvFixtureAfter rfl

/-- C5: whenever `spawn_with_db` returns, the database taken out of the
environment has been restored (the returned environment's slot is never
empty), and the returned value is exactly the closure's result on that
database; the rest of the environment is untouched. -/
theorem spawn_with_db_spec {D C R : Type} (env : HostEvmEnv D C)
    (f : D → Option (R × D)) (r : R) (env' : HostEvmEnv D C)
    (h : env.spawn_with_db f = some (r, env')) :
    env'.db.isSome = true ∧
    ∃ db db', env.db = some db ∧ f db = some (r, db') ∧
      env' = { env with db := some db' } := by
  rcases hdb : env.db with _ | db
  · simp [HostEvmEnv.spawn_with_db, hdb] at h
  · simp only [HostEvmEnv.spawn_with_db, hdb] at h
    rcases hfr : f db with _ | ⟨r', db'⟩
    · simp [hfr] at h
    · simp only [hfr, Option.some.injEq, Prod.mk.injEq] at h
      obtain ⟨rfl, rfl⟩ := h
      exact ⟨rfl, db, db', rfl, hfr, rfl⟩

/-- Fixture closure for `spawn_with_db_spec_witness`. -/
def closureFixture : Nat → Option (Nat × Nat) := fun db => some (db + 41, db)

/-- Witness for `spawn_with_db_spec` on the fixtures. -/
theorem spawn_with_db_spec_witness :
    hostEnvFixture.db.isSome = true ∧
    ∃ db db', hostEnvFixture.db = some db ∧
      closureFixture db = some (41, db') ∧
      hostEnvFixture = { hostEnvFixture with db := some db' } :=
  spawn_with_db_spec hostEnvFixture closureFixture 41 hostEnvFixture rfl

/-- Fixture block-committed host environment (inner commitment `()`). -/
def hostEnvFixtureUnit : HostEvmEnv Nat Unit :=
  { db := some 0
    header := { number := 1, timestamp := 2, state_root := 3 }
    cfg_env := { chain_id := 0, spec_id := 0 }
    commit := { inner := (), config_id := 0 } }

/-- Fixture `from_proof_db` used by the witnesses. -/
def fpdFixture : Nat → HeaderM → Option Nat := fun db h => some (db + h.number)

/-- C4: the `Input` variant produced by finalization is fixed by the
commitment strategy the environment was built with: the block-committed
`into_input` only ever produces the `Block` variant, the Beacon-committed
one only the `Beacon` variant (carrying its inner commit), and the
History-committed one only the `History` variant (carrying its inner
commit).  The strategies are separate functions — one per Rust `impl` —
so a mismatched combination cannot even be expressed. -/
theorem into_input_variants {D BI BC HC : Type}
    (envB : HostEvmEnv D Unit) (envBe : HostEvmEnv D BC)
    (envH : HostEvmEnv D HC) (fpd : D → HeaderM → Option BI) :
    (∀ out : EvmInput BI BC HC, envB.into_input_block fpd = some out →
      ∃ bi, out = .block bi) ∧
    (∀ out : EvmInput BI BC HC, envBe.into_input_beacon fpd = some out →
      ∃ ci, out = .beacon ci ∧ ci.commit = envBe.commit.inner) ∧
    (∀ out : EvmInput BI BC HC, envH.into_input_history fpd = some out →
      ∃ ci, out = .history ci ∧ ci.commit = envH.commit.inner) := by
  refine ⟨fun out h => ?_, fun out h => ?_, fun out h => ?_⟩
  · rcases hdb : envB.db with _ | db
    · simp [HostEvmEnv.into_input_block, hdb] at h
    · simp only [HostEvmEnv.into_input_block, hdb] at h
      rcases hfp : fpd db envB.header with _ | bi
      · simp [hfp] at h
      · simp only [hfp, Option.some.injEq] at h
        exact ⟨bi, h.symm⟩
  · rcases hdb : envBe.db with _ | db
    · simp [HostEvmEnv.into_input_beacon, hdb] at h
    · simp only [HostEvmEnv.into_input_beacon, hdb] at h
      rcases hfp : fpd db envBe.header with _ | bi
      · simp [hfp] at h
      · simp only [hfp, Option.some.injEq] at h
        exact ⟨ComposeInput.mk bi envBe.commit.inner, h.symm, rfl⟩
  · rcases hdb : envH.db with _ | db
    · simp [HostEvmEnv.into_input_history, hdb] at h
    · simp only [HostEvmEnv.into_input_history, hdb] at h
      rcases hfp : fpd db envH.header with _ | bi
      · simp [hfp] at h
      · simp only [hfp, Option.some.injEq] at h
        exact ⟨ComposeInput.mk bi envH.commit.inner, h.symm, rfl⟩

/-- Witness for `into_input_variants` on the fixtures. -/
theorem into_input_variants_witness :
    ∃ bi : Nat, (EvmInput.block 1 : EvmInput Nat Nat Nat) = .block bi :=
  (into_input_variants hostEnvFixtureUnit hostEnvFixture hostEnvFixture
    fpdFixture).1 (.block 1) rfl

/-! ## Claim theorems: guest composition protocol -/

/-- Fixture guest oracles used by the witnesses: `decode` reads the journal
bytes (a `Nat`) as the embedded image id, with stats 7 and commitment 0. -/
def guestOraclesFixture : GuestOracles Nat Nat Nat Nat :=
  { verify := fun _ _ => true
    decode := fun b => some { commitment := 0, stats := 7, selfImageID := b }
    link := fun _ _ => true
    exec := fun _ => some (3, 11)
    add_supply_rate := fun s d => s + d }

/-- C1: with an assumption journal supplied, the guest aborts without
producing a journal whenever the cryptographic verification fails, and
whenever the self-image identity decoded from the journal differs from the
identity the current run executes under — a journal of a different program
is always rejected. -/
theorem guest_identity_mismatch_rejected {I S B G : Type} [Inhabited S]
    [DecidableEq G] (o : GuestOracles I S B G) (inp : GuestInput I B G)
    (jb : B) (hassume : inp.assumption = some jb) :
    (o.verify inp.self_image_id jb = false → guestMain o inp = none) ∧
    (∀ j, o.decode jb = some j → j.selfImageID ≠ inp.self_image_id →
      guestMain o inp = none) := by
  constructor
  · intro hv
    simp [guestMain, guestStats, hassume, hv]
  · intro j hd hne
    cases hv : o.verify inp.self_image_id jb <;>
      simp [guestMain, guestStats, hassume, hv, hd, hne]

/-- Witness for `guest_identity_mismatch_rejected`: journal bytes decoding
to image id 9 supplied to a run executing under image id 5 are rejected. -/
theorem guest_identity_mismatch_rejected_witness :
    guestMain guestOraclesFixture (GuestInput.mk 0 5 (some 9)) = none :=
  (guest_identity_mismatch_rejected guestOraclesFixture
    (GuestInput.mk 0 5 (some 9)) 9 rfl).2
    (Journal.mk 0 7 9) rfl (by decide)

/-- C2: without an assumption the accumulator of the emitted journal is the
combination of the default value with the newly computed data; with a
valid assumption whose journal carries accumulator `v1`, it is the
combination of `v1` with the newly computed data. -/
theorem guest_accumulator {I S B G : Type} [Inhabited S] [DecidableEq G]
    (o : GuestOracles I S B G) (inp : GuestInput I B G) :
    (inp.assumption = none → ∀ j', guestMain o inp = some j' →
      ∃ sr c, o.exec inp.input = some (sr, c) ∧
        j'.stats = o.add_supply_rate default (sr * SECONDS_PER_YEAR)) ∧
    (∀ jb j, inp.assumption = some jb → o.decode jb = some j →
      ∀ j', guestMain o inp = some j' →
        ∃ sr c, o.exec inp.input = some (sr, c) ∧
          j'.stats = o.add_supply_rate j.stats (sr * SECONDS_PER_YEAR)) := by
  constructor
  · intro hnone j' hrun
    simp only [guestMain, guestStats, hnone] at hrun
    rcases hex : o.exec inp.input with _ | ⟨sr, c⟩
    · simp [hex] at hrun
    · simp only [hex, Option.some.injEq] at hrun
      exact ⟨sr, c, rfl, by rw [← hrun]⟩
  · intro jb j hsome hd j' hrun
    simp only [guestMain, guestStats, hsome] at hrun
    cases hv : o.verify inp.self_image_id jb <;> rw [hv] at hrun
    · simp at hrun
    · simp only [hd, if_true] at hrun
      by_cases hid : j.selfImageID = inp.self_image_id
      · rw [if_pos hid] at hrun
        cases hl : o.link inp.input j.commitment <;> rw [hl] at hrun
        · simp at hrun
        · simp only [if_true] at hrun
          rcases hex : o.exec inp.input with _ | ⟨sr, c⟩
          · simp [hex] at hrun
          · simp only [hex, Option.some.injEq] at hrun
            exact ⟨sr, c, rfl, by rw [← hrun]⟩
      · rw [if_neg hid] at hrun
        simp at hrun

/-- Witness for `guest_accumulator`: a valid assumption journal with stats
7 yields a journal whose stats are `7 + 3 * SECONDS_PER_YEAR`. -/
theorem guest_accumulator_witness :
    ∃ sr c, guestOraclesFixture.exec 0 = some (sr, c) ∧
      (Journal.mk 11 94608007 5 : Journal Nat Nat).stats =
        guestOraclesFixture.add_supply_rate 7 (sr * SECONDS_PER_YEAR) :=
  (guest_accumulator guestOraclesFixture (GuestInput.mk 0 5 (some 5))).2
    5 (Journal.mk 0 7 5) rfl rfl (Journal.mk 11 94608007 5) (by rfl)

/-- C8: every successful guest run, with or without an assumption, emits a
journal holding exactly the commitment of the executed environment, the
(possibly updated) accumulator, and the current run's own self-image
identity; without an assumption the accumulator update starts from the
default value. -/
theorem guest_journal_shape {I S B G : Type} [Inhabited S] [DecidableEq G]
    (o : GuestOracles I S B G) (inp : GuestInput I B G)
    (j' : Journal S G) (h : guestMain o inp = some j') :
    ∃ sr c stats0,
      o.exec inp.input = some (sr, c) ∧
      guestStats o inp = some stats0 ∧
      j'.commitment = c ∧
      j'.selfImageID = inp.self_image_id ∧
      j'.stats = o.add_supply_rate stats0 (sr * SECONDS_PER_YEAR) ∧
      (inp.assumption = none → stats0 = default) := by
  unfold guestMain at h
  rcases hst : guestStats o inp with _ | stats0 <;> rw [hst] at h
  · cases h
  · rcases hex : o.exec inp.input with _ | ⟨sr, c⟩ <;> rw [hex] at h
    · cases h
    · simp only [Option.some.injEq] at h
      refine ⟨sr, c, stats0, rfl, rfl, ?_, ?_, ?_, ?_⟩
      · rw [← h]
      · rw [← h]
      · rw [← h]
      · intro hnone
        rw [guestStats, hnone] at hst
        exact (Option.some.inj hst).symm

/-- Witness for `guest_journal_shape` on a run without an assumption. -/
theorem guest_journal_shape_witness :
    ∃ sr c stats0,
      guestOraclesFixture.exec 0 = some (sr, c) ∧
      guestStats guestOraclesFixture (GuestInput.mk 0 5 none) = some stats0 ∧
      (Journal.mk 11 94608000 5 : Journal Nat Nat).commitment = c ∧
      (Journal.mk 11 94608000 5 : Journal Nat Nat).selfImageID = 5 ∧
      (Journal.mk 11 94608000 5 : Journal Nat Nat).stats =
        guestOraclesFixture.add_supply_rate stats0 (sr * SECONDS_PER_YEAR) ∧
      ((GuestInput.mk 0 5 none : GuestInput Nat Nat Nat).assumption = none →
        stats0 = default) :=
  guest_journal_shape guestOraclesFixture (GuestInput.mk 0 5 none)
    (Journal.mk 11 94608000 5) (by rfl)
